import Mathlib

/-
Verification of the topology-discovery, stats-parsing and resctrl-manager
components of the cadvisor fork.  The sysinfo/machine implementations are
absent from the source tree (only their unit tests are present), so those
operations are modelled from the specification, refined at the points the
in-tree tests pin down concrete behaviour.  The resctrl manager is embedded
directly from resctrl/manager.go.
-/

/-- Modelled from the spec: Go `error` values.  Only the distinction that the
code inspects (`os.IsNotExist`) is kept; all other errors are distinguished by
the site that raised them, since their messages are never branched on. -/
inductive Err where
  | notExist
  | badCPUDirFormat
  | badNodeDirFormat
  | badCoreId
  | badHugePageSize
  | badHugePageNr
  | memTotalNotFound
  | noCPUs
  | resctrlNotInitialized
  | noMonitoringFeatures
  | setupFailed
  | readFailure
deriving DecidableEq

/-- Fold of decimal digit characters into a natural number. -/
def digitsToNat (cs : List Char) : Nat :=
  cs.foldl (fun n c => 10 * n + (c.toNat - ('0').toNat)) 0

/-- Parse of a nonempty all-digit character list, as Go `strconv.Atoi` behaves
on the non-negative inputs that occur in sysfs files. -/
def parseNatList (cs : List Char) : Option Nat :=
  if cs.isEmpty then none
  else if cs.all Char.isDigit then some (digitsToNat cs) else none

/-- Parse of a decimal string. -/
def parseNatStr (s : String) : Option Nat :=
  parseNatList s.data

/-- Last path component of a character list (the part after the final slash). -/
def lastCompChars (cs : List Char) : List Char :=
  ((cs.reverse.takeWhile (fun c => c != '/')).reverse)

/-- Modelled from the spec: extraction of the logical-CPU number from a CPU
directory path, as the regular expression over `cpu(digits)` does on the
paths the tests use (the final path component is `cpu` followed by digits). -/
def cpuIDFromPath (s : String) : Option Nat :=
  match lastCompChars s.data with
  | 'c' :: 'p' :: 'u' :: rest => parseNatList rest
  | _ => none

/-- Modelled from the spec: extraction of the node number from a NUMA node
directory path (final component `node` followed by digits). -/
def nodeIDFromPath (s : String) : Option Nat :=
  match lastCompChars s.data with
  | 'n' :: 'o' :: 'd' :: 'e' :: rest => parseNatList rest
  | _ => none

/-- One physical core of the discovery result (`info.Core`): kernel core id,
member hardware-thread numbers, owning socket. -/
structure Core where
  id : Nat
  threads : List Nat
  socketID : Nat
deriving DecidableEq

/-- One huge-page pool entry of a node (`info.HugePagesInfo`): page size in kB
and number of configured pages. -/
structure HugePagesInfo where
  pageSize : Nat
  numPages : Nat
deriving DecidableEq

/-- One NUMA (or synthetic) node of the discovery result (`info.Node`).
Cache lists are omitted: no claim concerns cache placement. -/
structure Node where
  id : Nat
  memory : Nat
  hugePages : List HugePagesInfo
  cores : List Core
deriving DecidableEq

/-- Modelled from the spec: the pseudo-filesystem accessor capability
(`sysfs.SysFs`) that all discovery operations consume.  Every fallible read
is an explicit success/failure outcome; `onlineStatus` returns `none` when a
CPU has no online indicator file. -/
structure SysFs where
  nodesPaths : List String
  cpusPaths : String → List String
  coreID : String → Except Err String
  physicalPackageID : String → Except Err String
  onlineStatus : String → Option Bool
  memInfo : String → Except Err String
  hugePagesList : String → Except Err (List String)
  hugePagesNr : String → String → Except Err String

/-- Modelled from the spec: a CPU with no online indicator is treated as
online; otherwise the explicitly read status decides. -/
def isCPUOnline (fs : SysFs) (cpuPath : String) : Bool :=
  (fs.onlineStatus cpuPath).getD true

/-- Boolean success test of a read outcome. -/
def exceptOk (e : Except Err String) : Bool :=
  match e with
  | Except.ok _ => true
  | Except.error _ => false

/-- Accumulator entry used while grouping CPUs into cores: the core under
construction plus a flag recording whether its socket id has already been
resolved from some member CPU (first successful package-id read wins). -/
structure CoreAcc where
  id : Nat
  threads : List Nat
  socketID : Nat
  socketResolved : Bool
deriving DecidableEq

/-- Projection from the accumulator entry to the result core. -/
def stripAcc (c : CoreAcc) : Core :=
  { id := c.id, threads := c.threads, socketID := c.socketID }

/-- Appends a thread to the (unique) accumulator core with the given core id,
creating the core when none exists yet. -/
def addThread (cores : List CoreAcc) (coreId cpuID : Nat) : List CoreAcc :=
  match cores with
  | [] => [{ id := coreId, threads := [cpuID], socketID := 0, socketResolved := false }]
  | c :: rest =>
    if c.id = coreId then { c with threads := c.threads ++ [cpuID] } :: rest
    else c :: addThread rest coreId cpuID

/-- Records a successfully resolved physical-package id on the core with the
given core id, unless one was already recorded (first success wins). -/
def setSocket (cores : List CoreAcc) (coreId pkg : Nat) : List CoreAcc :=
  match cores with
  | [] => []
  | c :: rest =>
    if c.id = coreId then
      (if c.socketResolved then c
       else { c with socketID := pkg, socketResolved := true }) :: rest
    else c :: setSocket rest coreId pkg

/-- Modelled from the spec: the physical-package id of a CPU, when its read
and decimal parse both succeed; failures of either kind leave the CPU
unplaced (spec step 2; the read-vs-parse distinction is not pinned by any
in-tree test, so both are treated as failure to resolve). -/
def resolvePkg (fs : SysFs) (cpuPath : String) : Option Nat :=
  match fs.physicalPackageID cpuPath with
  | Except.error _ => none
  | Except.ok raw => parseNatStr raw

/-- Modelled from the spec (step 3, refined by the tests): processing of one
member CPU.  A malformed CPU directory is fatal; an offline CPU is skipped; a
core-id read failing with not-exist is skipped; any other core-id read error
is fatal; a non-digit core-id value is fatal (pinned by
TestGetCoresInfoWhenCoreIDIsNotDigit, where the spec text instead says skip);
otherwise the CPU joins its core and may resolve the core's socket id. -/
def stepCPU (fs : SysFs) (cores : List CoreAcc) (d : String) : Except Err (List CoreAcc) :=
  match cpuIDFromPath d with
  | none => Except.error Err.badCPUDirFormat
  | some cpuID =>
    if isCPUOnline fs d = false then Except.ok cores
    else
      match fs.coreID d with
      | Except.error Err.notExist => Except.ok cores
      | Except.error e => Except.error e
      | Except.ok raw =>
        match parseNatStr raw with
        | none => Except.error Err.badCoreId
        | some coreId =>
          let cores1 := addThread cores coreId cpuID
          match resolvePkg fs d with
          | none => Except.ok cores1
          | some pkg => Except.ok (setSocket cores1 coreId pkg)

/-- Left fold of `stepCPU` over the member CPU list; a fatal error discards
the cores accumulated so far, as the Go code returns `nil, err`. -/
def getCoresInfoGo (fs : SysFs) : List CoreAcc → List String → List CoreAcc × Option Err
  | cores, [] => (cores, none)
  | cores, d :: rest =>
    match stepCPU fs cores d with
    | Except.error e => ([], some e)
    | Except.ok cores2 => getCoresInfoGo fs cores2 rest

/-- Modelled from the spec: `getCoresInfo` groups the surviving member CPUs
of one node by core id (spec steps 3-4, refined by the in-tree tests). -/
def getCoresInfo (fs : SysFs) (cpuDirs : List String) : List Core × Option Err :=
  match getCoresInfoGo fs [] cpuDirs with
  | (cores, none) => (cores.map stripAcc, none)
  | (_, some e) => ([], some e)

/-- Drops a literal pattern from the front of a character list, failing when
the list does not start with it. -/
def dropPre : List Char → List Char → Option (List Char)
  | [], cs => some cs
  | _ :: _, [] => none
  | p :: ps, c :: cs => if p = c then dropPre ps cs else none

/-- Characters of the total-memory tag searched for in a node meminfo file. -/
def memTotalTag : List Char :=
  ['M', 'e', 'm', 'T', 'o', 't', 'a', 'l', ':']

/-- Modelled from the spec: one attempt of the memory-capacity pattern at the
head of the text: the tag, optional spaces, one or more digits, then a space
and `kB`. -/
def matchMemTotalAt (cs : List Char) : Option Nat :=
  match dropPre memTotalTag cs with
  | none => none
  | some rest1 =>
    let rest2 := rest1.dropWhile (fun c => c == ' ')
    let digits := rest2.takeWhile Char.isDigit
    let rest3 := rest2.dropWhile Char.isDigit
    if digits.isEmpty then none
    else
      match rest3 with
      | ' ' :: 'k' :: 'B' :: _ => some (digitsToNat digits)
      | _ => none

/-- Search of the memory-capacity pattern anywhere in the text, as the Go
regular expression scans the whole meminfo content. -/
def findMemTotal : List Char → Option Nat
  | [] => none
  | c :: rest =>
    match matchMemTotalAt (c :: rest) with
    | some n => some n
    | none => findMemTotal rest

/-- Extraction of the MemTotal kB figure from meminfo text. -/
def extractMemTotal (s : String) : Option Nat :=
  findMemTotal s.data

/-- Modelled from the spec (step 7): node memory resolution.  A failed read
of the meminfo file yields zero memory with no error; a readable file lacking
the total-memory field is an error; otherwise the kB figure is converted to
bytes. -/
def getNodeMemInfo (fs : SysFs) (nodeDir : String) : Nat × Option Err :=
  match fs.memInfo nodeDir with
  | Except.error _ => (0, none)
  | Except.ok s =>
    match extractMemTotal s with
    | none => (0, some Err.memTotalNotFound)
    | some kb => (kb * 1024, none)

/-- Part of a huge-page directory name after the first dash and before the
next dash, as Go splits the name on dashes and takes the second field. -/
def afterFirstDash : List Char → Option (List Char)
  | [] => none
  | c :: rest =>
    if c == '-' then some (rest.takeWhile (fun x => x != '-'))
    else afterFirstDash rest

/-- Part of a character list before the first occurrence of `kB`. -/
def beforeKB : List Char → List Char
  | [] => []
  | 'k' :: 'B' :: _ => []
  | c :: rest => c :: beforeKB rest

/-- Modelled from the spec: decoding of the page size (in kB) from a
huge-page directory entry name of the shape hugepages-(size)kB; a malformed
suffix yields no size. -/
def parseHugePageSize (name : String) : Option Nat :=
  match afterFirstDash name.data with
  | none => none
  | some cs => parseNatList (beforeKB cs)

/-- Modelled from the spec: parse of an nr_hugepages file as Go Sscanf with a
decimal verb behaves: leading whitespace is skipped, then at least one digit
is required; trailing text (such as a newline) is ignored. -/
def sscanfNat (s : String) : Option Nat :=
  let cs := s.data.dropWhile (fun c => c == ' ' || c == '\n' || c == '\t')
  let digits := cs.takeWhile Char.isDigit
  if digits.isEmpty then none else some (digitsToNat digits)

/-- Per-entry loop of huge-page resolution: a malformed size suffix, an
unreadable page count, or a non-numeric page count aborts with an error and
an empty result. -/
def goHugePages (fs : SysFs) (dir : String) : List String → List HugePagesInfo × Option Err
  | [] => ([], none)
  | name :: rest =>
    match parseHugePageSize name with
    | none => ([], some Err.badHugePageSize)
    | some sz =>
      match fs.hugePagesNr dir name with
      | Except.error e => ([], some e)
      | Except.ok content =>
        match sscanfNat content with
        | none => ([], some Err.badHugePageNr)
        | some cnt =>
          match goHugePages fs dir rest with
          | (_, some e) => ([], some e)
          | (tail, none) => ({ pageSize := sz, numPages := cnt } :: tail, none)

/-- Modelled from the spec (step 6): `GetHugePagesInfo`.  Absence of the
huge-page directory tree (a failed listing) yields an empty list and no
error; any malformed entry is an error with an empty result. -/
def GetHugePagesInfo (fs : SysFs) (dir : String) : List HugePagesInfo × Option Err :=
  match fs.hugePagesList dir with
  | Except.error _ => ([], none)
  | Except.ok names => goHugePages fs dir names

/-- Core resolution of one node: a node directory listed with no CPUs keeps
an empty core list without error, otherwise `getCoresInfo` decides. -/
def coresForNode (fs : SysFs) (cpuDirs : List String) : Except Err (List Core) :=
  if cpuDirs.isEmpty then Except.ok []
  else
    match getCoresInfo fs cpuDirs with
    | (cores, none) => Except.ok cores
    | (_, some e) => Except.error e

/-- Suffix appended to a node directory to reach its huge-page tree. -/
def hugePagesSuffix : String := "/hugepages/"

/-- Modelled from the spec (NUMA mode, steps 2-7): assembly of one node and
its contribution to the total CPU count.  Core, memory and huge-page errors
are fatal. -/
def buildNode (fs : SysFs) (nodeDir : String) : Except Err (Node × Nat) :=
  match nodeIDFromPath nodeDir with
  | none => Except.error Err.badNodeDirFormat
  | some nid =>
    match coresForNode fs (fs.cpusPaths nodeDir) with
    | Except.error e => Except.error e
    | Except.ok cores =>
      match getNodeMemInfo fs nodeDir with
      | (_, some e) => Except.error e
      | (mem, none) =>
        match GetHugePagesInfo fs (nodeDir ++ hugePagesSuffix) with
        | (_, some e) => Except.error e
        | (hp, none) =>
          Except.ok ({ id := nid, memory := mem, hugePages := hp, cores := cores },
                     (cores.map (fun c => c.threads.length)).sum)

/-- Loop of NUMA-mode discovery over the node directories; a fatal error
aborts the whole call with no nodes and a zero count. -/
def goNodes (fs : SysFs) : List String → List Node × Nat × Option Err
  | [] => ([], 0, none)
  | d :: rest =>
    match buildNode fs d with
    | Except.error e => ([], 0, some e)
    | Except.ok (node, cnt) =>
      match goNodes fs rest with
      | (ns, c, none) => (node :: ns, cnt + c, none)
      | (_, _, some e) => ([], 0, some e)

/-- Machine-wide CPU directory used by synthetic mode. -/
def cpusPath : String := "/sys/devices/system/cpu"

/-- Insertion of a CPU path into the group keyed by its package id, appending
a fresh group when the key is new. -/
def assocAppend : List (Nat × List String) → Nat → String → List (Nat × List String)
  | [], pkg, d => [(pkg, [d])]
  | (k, v) :: rest, pkg, d =>
    if k = pkg then (k, v ++ [d]) :: rest
    else (k, v) :: assocAppend rest pkg d

/-- Modelled from the spec (synthetic mode, step 2): grouping of CPUs by
successfully-read physical-package id; a CPU whose package id cannot be
resolved joins no group. -/
def groupByPkg (fs : SysFs) : List String → List (Nat × List String) → List (Nat × List String)
  | [], acc => acc
  | d :: rest, acc =>
    match resolvePkg fs d with
    | none => groupByPkg fs rest acc
    | some pkg => groupByPkg fs rest (assocAppend acc pkg d)

/-- Modelled from the spec: a synthetic node per package group, with zero
memory and no huge pages; core resolution errors are fatal. -/
def buildSyntheticNodes (fs : SysFs) : List (Nat × List String) → Except Err (List Node)
  | [] => Except.ok []
  | (pkg, cpus) :: rest =>
    match getCoresInfo fs cpus with
    | (_, some e) => Except.error e
    | (cores, none) =>
      match buildSyntheticNodes fs rest with
      | Except.error e => Except.error e
      | Except.ok ns =>
        Except.ok ({ id := pkg, memory := 0, hugePages := [], cores := cores } :: ns)

/-- Online CPU whose sibling/core-id read succeeded: the criterion of spec
step 3 for inclusion in the total CPU count. -/
def onlineSiblingOk (fs : SysFs) (d : String) : Bool :=
  isCPUOnline fs d && exceptOk (fs.coreID d)

/-- Modelled from the spec (synthetic mode): discovery fallback when no NUMA
node directories exist.  The total count is the number of member CPUs that
are online with a successful sibling read, independent of package placement;
CPUs of no group are absent from the tree; an empty machine CPU directory is
an error. -/
def getCPUTopology (fs : SysFs) : List Node × Nat × Option Err :=
  if (fs.cpusPaths cpusPath).isEmpty then ([], 0, some Err.noCPUs)
  else
    match buildSyntheticNodes fs (groupByPkg fs (fs.cpusPaths cpusPath) []) with
    | Except.error e => ([], 0, some e)
    | Except.ok ns => (ns, ((fs.cpusPaths cpusPath).filter (onlineSiblingOk fs)).length, none)

/-- Modelled from the spec: `GetNodesInfo`, the topology discovery entry
point.  NUMA mode when node directories exist, synthetic mode otherwise. -/
def GetNodesInfo (fs : SysFs) : List Node × Nat × Option Err :=
  if fs.nodesPaths.isEmpty then getCPUTopology fs
  else goNodes fs fs.nodesPaths

/-- First core of a list containing the given logical CPU among its
threads. -/
def findCoreWithThread (cores : List Core) (cpu : Nat) : Option Core :=
  cores.find? (fun c => c.threads.contains cpu)

/-- Modelled from the spec: `GetSocketFromCPU`, a linear search of all cores
of all nodes for the CPU, returning the owning core's socket id or the
sentinel value for an absent CPU. -/
def GetSocketFromCPU : List Node → Nat → Int
  | [], _ => -1
  | node :: rest, cpu =>
    match findCoreWithThread node.cores cpu with
    | some core => Int.ofNat core.socketID
    | none => GetSocketFromCPU rest cpu


/-- Split of a character list at separator characters, keeping empty
fields. -/
def splitCharsAux (sep : Char → Bool) : List Char → List Char → List (List Char)
  | [], cur => [cur.reverse]
  | c :: rest, cur =>
    if sep c then cur.reverse :: splitCharsAux sep rest []
    else splitCharsAux sep rest (c :: cur)

/-- Lines of a text, split at newline characters. -/
def splitLines (s : String) : List String :=
  (splitCharsAux (fun c => c == '\n') s.data []).map (fun cs => String.mk cs)

/-- Whitespace-delimited fields of a line, empty fields dropped, as Go
strings.Fields behaves. -/
def fieldsOf (s : String) : List String :=
  ((splitCharsAux (fun c => c == ' ' || c == '\t') s.data []).filter
    (fun cs => cs.isEmpty = false)).map (fun cs => String.mk cs)

/-- Modelled from the spec: decoding of one counter line into a name/value
pair; a line is well formed when it holds exactly a name field and a decimal
value field. -/
def parseVMLine (line : String) : Option (String × Nat) :=
  match fieldsOf line with
  | [n, v] =>
    match parseNatStr v with
    | some k => some (n, k)
    | none => none
  | _ => none

/-- Name/value pairs present in a counter file, in line order. -/
def vmPairs (s : String) : List (String × Nat) :=
  (splitLines s).filterMap parseVMLine

/-- Value of the last pair carrying the given name, the map semantics of the
Go result. -/
def lastVal : List (String × Nat) → String → Option Nat
  | [], _ => none
  | (k, v) :: rest, n =>
    match lastVal rest n with
    | some w => some w
    | none => if k = n then some v else none

/-- Lookup in the association-list representation of the result map. -/
def assocLookup : List (String × Nat) → String → Option Nat
  | [], _ => none
  | (k, v) :: rest, n => if k = n then some v else assocLookup rest n

/-- Map insertion: an existing key is overwritten in place, a new key is
appended. -/
def upsert : List (String × Nat) → String → Nat → List (String × Nat)
  | [], k, v => [(k, v)]
  | (k0, v0) :: rest, k, v =>
    if k0 = k then (k0, v) :: rest
    else (k0, v0) :: upsert rest k v

/-- Loop of the counter parser over the file lines: well-formed lines whose
name satisfies the filter are inserted (last occurrence wins); other lines
are skipped. -/
def goVMStats (p : String → Bool) : List String → List (String × Nat) → List (String × Nat)
  | [], acc => acc
  | line :: rest, acc =>
    match parseVMLine line with
    | none => goVMStats p rest acc
    | some (n, v) => goVMStats p rest (if p n then upsert acc n v else acc)

/-- Modelled from the spec: `GetVMStats` (ParseCounters).  The regular
expression filter is represented by its matching predicate on counter names;
the file read outcome is the accessor's.  An unreadable file is an error;
otherwise each matching well-formed line lands in the result map. -/
def GetVMStats (p : String → Bool) (content : Except Err String) : List (String × Nat) × Option Err :=
  match content with
  | Except.error e => ([], some e)
  | Except.ok s => (goVMStats p (splitLines s) [], none)

/-- Flags probed by the resctrl setup routine; defined outside the embedded
file, so carried as explicit state: whether the resource-control filesystem
was initialized and which monitoring features are enabled. -/
structure ResctrlState where
  isResctrlInitialized : Bool
  enabledCMT : Bool
  enabledMBM : Bool
deriving DecidableEq

/-- Manager value returned by construction: the no-op (Disabled) manager or
the ready manager holding the polling interval. -/
inductive RManager where
  | noop
  | ready (interval : Int)
deriving DecidableEq

/-- Collector value returned by GetCollector: the no-op collector or the
per-container collector holding the container name and polling interval. -/
inductive RCollector where
  | noop
  | collector (containerName : String) (interval : Int)
deriving DecidableEq

/-- NewManager of resctrl/manager.go: the setup routine's outcome is its
returned error; then the initialization flag and the feature flags decide
between the no-op manager with an error and the ready manager. -/
def NewManager (st : ResctrlState) (interval : Int) (setupResult : Option Err) : RManager × Option Err :=
  match setupResult with
  | some e => (RManager.noop, some e)
  | none =>
    if st.isResctrlInitialized = false then
      (RManager.noop, some Err.resctrlNotInitialized)
    else if (st.enabledCMT || st.enabledMBM) = false then
      (RManager.noop, some Err.noMonitoringFeatures)
    else
      (RManager.ready interval, none)

/-- GetCollector of the ready manager in resctrl/manager.go.  Modelled from
the spec: newCollector and its setup are absent from the embedded sources, so
the collector is represented by its identifying data and setup by its
outcome; on setup failure the no-op collector is returned with the error. -/
def managerGetCollector (interval : Int) (containerName : String) (setupResult : Option Err) : RCollector × Option Err :=
  match setupResult with
  | some e => (RCollector.noop, some e)
  | none => (RCollector.collector containerName interval, none)

/-- GetCollector of the no-op manager in resctrl/manager.go: both arguments
are ignored and the no-op collector is returned with no error. -/
def noopGetCollector (_containerName : String) (_pidLister : Unit → List String × Option Err) : RCollector × Option Err :=
  (RCollector.noop, none)

/-- Node directory name used by the concrete scenarios. -/
def pN0 : String := "node0"

/-- Second node directory name used by the concrete scenarios. -/
def pN1 : String := "node1"

/-- CPU directory names used by the concrete scenarios. -/
def pC0 : String := "cpu0"

/-- Second CPU directory name. -/
def pC1 : String := "cpu1"

/-- Third CPU directory name. -/
def pC2 : String := "cpu2"

/-- Fourth CPU directory name. -/
def pC3 : String := "cpu3"

/-- Machine-wide CPU directory entries used by the synthetic scenarios. -/
def spC0 : String := cpusPath ++ "/cpu0"

/-- Second machine-wide CPU directory entry. -/
def spC1 : String := cpusPath ++ "/cpu1"

/-- File content holding the digit zero. -/
def s0 : String := "0"

/-- File content holding the digit one. -/
def s1 : String := "1"

/-- Non-digit core-id content of TestGetCoresInfoWhenCoreIDIsNotDigit. -/
def sAbc : String := "abc"

/-- Meminfo content of the tests, 32817192 kB of total memory. -/
def sMemGood : String := "MemTotal:       32817192 kB"

/-- Empty meminfo content, readable but lacking the MemTotal field. -/
def sEmpty : String := ""

/-- Well-formed huge-page directory entry name of the tests. -/
def hpGood : String := "hugepages-2048kB"

/-- Malformed huge-page directory entry name of
TestGetHugePagesInfoWithWrongDirName. -/
def hpBad : String := "hugepages-abckB"

/-- Accessor of the TestGetCoresInfoWhenCoreIDIsNotDigit scenario: one CPU
whose sibling/core-id file reads successfully but holds a non-digit value. -/
def c1Fs : SysFs where
  nodesPaths := [pN0]
  cpusPaths := fun _ => []
  coreID := fun p => if p = pC0 then Except.ok sAbc else Except.error Err.notExist
  physicalPackageID := fun _ => Except.error Err.notExist
  onlineStatus := fun _ => none
  memInfo := fun _ => Except.error Err.notExist
  hugePagesList := fun _ => Except.error Err.notExist
  hugePagesNr := fun _ _ => Except.error Err.notExist

/-- Accessor with two CPUs of one core where the first CPU's core-id file is
absent (TestGetNodesWhenTopologyDirMissingForOneCPU shape). -/
def skipFs : SysFs where
  nodesPaths := [pN0]
  cpusPaths := fun p => if p = pN0 then [pC0, pC1] else []
  coreID := fun p => if p = pC1 then Except.ok s0 else Except.error Err.notExist
  physicalPackageID := fun p => if p = pC1 then Except.ok s0 else Except.error Err.notExist
  onlineStatus := fun _ => none
  memInfo := fun _ => Except.error Err.notExist
  hugePagesList := fun _ => Except.error Err.notExist
  hugePagesNr := fun _ _ => Except.error Err.notExist

/-- Accessor of the TestGetNodesInfoWithOfflineCPUs scenario: two nodes of
two CPUs each, with one CPU of each node reported offline by an explicit
online status. -/
def offlineFs : SysFs where
  nodesPaths := [pN0, pN1]
  cpusPaths := fun p => if p = pN0 then [pC0, pC1] else if p = pN1 then [pC2, pC3] else []
  coreID := fun p =>
    if p == pC0 || p == pC1 then Except.ok s0
    else if p == pC2 || p == pC3 then Except.ok s1
    else Except.error Err.notExist
  physicalPackageID := fun p =>
    if p == pC0 || p == pC1 then Except.ok s0
    else if p == pC2 || p == pC3 then Except.ok s1
    else Except.error Err.notExist
  onlineStatus := fun p => some (p == pC0 || p == pC2)
  memInfo := fun _ => Except.ok sMemGood
  hugePagesList := fun _ => Except.ok [hpGood]
  hugePagesNr := fun _ _ => Except.ok s1

/-- First expected node of the offline scenario: only the online thread 0
remains in core 0. -/
def offlineNode0 : Node where
  id := 0
  memory := 33604804608
  hugePages := [{ pageSize := 2048, numPages := 1 }]
  cores := [{ id := 0, threads := [0], socketID := 0 }]

/-- Second expected node of the offline scenario: only the online thread 2
remains in core 1. -/
def offlineNode1 : Node where
  id := 1
  memory := 33604804608
  hugePages := [{ pageSize := 2048, numPages := 1 }]
  cores := [{ id := 1, threads := [2], socketID := 1 }]

/-- Accessor of TestGetNodesInfoWithoutNodesWhenPhysicalPackageIDMissing: no
NUMA node directories, two CPUs, and every physical-package-id read fails. -/
def synthAllFailFs : SysFs where
  nodesPaths := []
  cpusPaths := fun p => if p = cpusPath then [spC0, spC1] else []
  coreID := fun p => if p == spC0 || p == spC1 then Except.ok s0 else Except.error Err.notExist
  physicalPackageID := fun _ => Except.error Err.notExist
  onlineStatus := fun _ => none
  memInfo := fun _ => Except.error Err.notExist
  hugePagesList := fun _ => Except.error Err.notExist
  hugePagesNr := fun _ _ => Except.error Err.notExist

/-- Accessor of TestGetNodesInfoWithoutNodesWhenPhysicalPackageIDMissingForOneCPU:
no NUMA node directories, two CPUs of one core, and the second CPU's
physical-package-id read fails. -/
def synthOneFailFs : SysFs where
  nodesPaths := []
  cpusPaths := fun p => if p = cpusPath then [spC0, spC1] else []
  coreID := fun p => if p == spC0 || p == spC1 then Except.ok s0 else Except.error Err.notExist
  physicalPackageID := fun p => if p = spC0 then Except.ok s0 else Except.error Err.notExist
  onlineStatus := fun _ => none
  memInfo := fun _ => Except.error Err.notExist
  hugePagesList := fun _ => Except.error Err.notExist
  hugePagesNr := fun _ _ => Except.error Err.notExist

/-- Expected synthetic node of the one-failure scenario: the CPU with the
failed package read is absent from the core's threads. -/
def synthOneFailNode : Node where
  id := 0
  memory := 0
  hugePages := []
  cores := [{ id := 0, threads := [0], socketID := 0 }]

/-- Accessor of the TestGetNodesWithoutMemoryInfo shape: a readable meminfo
file lacking the MemTotal field makes the whole discovery call fail. -/
def memFailFs : SysFs where
  nodesPaths := [pN0]
  cpusPaths := fun p => if p = pN0 then [pC0] else []
  coreID := fun p => if p = pC0 then Except.ok s0 else Except.error Err.notExist
  physicalPackageID := fun p => if p = pC0 then Except.ok s0 else Except.error Err.notExist
  onlineStatus := fun _ => none
  memInfo := fun _ => Except.ok sEmpty
  hugePagesList := fun _ => Except.error Err.notExist
  hugePagesNr := fun _ _ => Except.error Err.notExist

/-- Accessor whose meminfo file itself is unreadable (feature absent):
TestGetNodeMemInfoWhenMemInfoMissing shape. -/
def memAbsentFs : SysFs where
  nodesPaths := [pN0]
  cpusPaths := fun _ => []
  coreID := fun _ => Except.error Err.notExist
  physicalPackageID := fun _ => Except.error Err.notExist
  onlineStatus := fun _ => none
  memInfo := fun _ => Except.error Err.readFailure
  hugePagesList := fun _ => Except.error Err.notExist
  hugePagesNr := fun _ _ => Except.error Err.notExist

/-- Accessor of the TestGetHugePagesInfoWithWrongDirName shape embedded in a
whole-discovery call: one node whose huge-page tree holds a malformed size
directory. -/
def hugeFailFs : SysFs where
  nodesPaths := [pN0]
  cpusPaths := fun p => if p = pN0 then [pC0] else []
  coreID := fun p => if p = pC0 then Except.ok s0 else Except.error Err.notExist
  physicalPackageID := fun p => if p = pC0 then Except.ok s0 else Except.error Err.notExist
  onlineStatus := fun _ => none
  memInfo := fun _ => Except.ok sMemGood
  hugePagesList := fun _ => Except.ok [hpBad]
  hugePagesNr := fun _ _ => Except.ok s1

/-- Accessor whose huge-page directory tree is absent. -/
def hugeAbsentFs : SysFs where
  nodesPaths := [pN0]
  cpusPaths := fun _ => []
  coreID := fun _ => Except.error Err.notExist
  physicalPackageID := fun _ => Except.error Err.notExist
  onlineStatus := fun _ => none
  memInfo := fun _ => Except.error Err.notExist
  hugePagesList := fun _ => Except.error Err.readFailure
  hugePagesNr := fun _ _ => Except.error Err.notExist

/-- Topology of TestGetSocketFromCPU: two nodes of two cores each, threads
0-7, socket ids 0 and 1. -/
def socketTopo : List Node :=
  [{ id := 0, memory := 0, hugePages := [],
     cores := [{ id := 0, threads := [0, 1], socketID := 0 },
               { id := 1, threads := [2, 3], socketID := 0 }] },
   { id := 1, memory := 0, hugePages := [],
     cores := [{ id := 0, threads := [4, 5], socketID := 1 },
               { id := 1, threads := [6, 7], socketID := 1 }] }]

/-- Prefix test on character lists. -/
def isPreChars : List Char → List Char → Bool
  | [], _ => true
  | _ :: _, [] => false
  | p :: ps, c :: cs => p == c && isPreChars ps cs

/-- Matching predicate of the numa-counters filter pattern of
TestGetVMStatsGetNuma: names starting with numa. -/
def numaFilter (s : String) : Bool :=
  isPreChars ['n', 'u', 'm', 'a'] s.data

/-- Filter matching no name at all. -/
def noneFilter (_s : String) : Bool := false

/-- Small counter-file content for the concrete parser scenarios. -/
def vmContent : String := "numa_hit 5\nnuma_miss 0\npgfault 7"

/-- Counter name used in the parser scenarios. -/
def vmNumaHit : String := "numa_hit"

/-- Second counter name used in the parser scenarios. -/
def vmPgfault : String := "pgfault"

/-- Container name used by the concrete resctrl scenarios. -/
def containerName0 : String := "container0"

/-- Pid-listing callback used by the concrete resctrl scenarios. -/
def pidLister0 : Unit → List String × Option Err :=
  fun _ => ([s1], none)

/-- Modelled from the spec: the conditions under which one huge-page
directory entry is malformed: a non-numeric size suffix, an unreadable page
count, or a non-numeric page count. -/
def badHugeEntry (fs : SysFs) (dir name : String) : Prop :=
  parseHugePageSize name = none ∨
  (∃ e, fs.hugePagesNr dir name = Except.error e) ∨
  (∃ s, fs.hugePagesNr dir name = Except.ok s ∧ sscanfNat s = none)

/-- First-of-two choice on optional values, used to state the map lookup of
the parser loop. -/
def orElseO (a b : Option Nat) : Option Nat :=
  match a with
  | some v => some v
  | none => b

/-- Threads of cores produced by `addThread` come from the previous
accumulator or are the inserted CPU number. -/
theorem addThread_threads (coreId cpuID : Nat) :
    ∀ (cores : List CoreAcc), ∀ c ∈ addThread cores coreId cpuID, ∀ t ∈ c.threads,
      (∃ c0 ∈ cores, t ∈ c0.threads) ∨ t = cpuID := by
  intro cores
  induction cores with
  | nil =>
    intro c hc t ht
    simp only [addThread, List.mem_singleton] at hc
    subst hc
    simp only [List.mem_singleton] at ht
    exact Or.inr ht
  | cons c0 rest ih =>
    intro c hc t ht
    simp only [addThread] at hc
    by_cases hid : c0.id = coreId
    · rw [if_pos hid] at hc
      rcases List.mem_cons.mp hc with h1 | h1
      · subst h1
        simp only [List.mem_append, List.mem_singleton] at ht
        rcases ht with h2 | h2
        · exact Or.inl ⟨c0, List.mem_cons_self c0 rest, h2⟩
        · exact Or.inr h2
      · exact Or.inl ⟨c, List.mem_cons_of_mem c0 h1, ht⟩
    · rw [if_neg hid] at hc
      rcases List.mem_cons.mp hc with h1 | h1
      · subst h1
        exact Or.inl ⟨c, List.mem_cons_self c rest, ht⟩
      · rcases ih c h1 t ht with ⟨c1, hc1, ht1⟩ | h2
        · exact Or.inl ⟨c1, List.mem_cons_of_mem c0 hc1, ht1⟩
        · exact Or.inr h2

/-- Cores produced by `setSocket` keep the thread lists of the previous
accumulator. -/
theorem setSocket_threads (coreId pkg : Nat) :
    ∀ (cores : List CoreAcc), ∀ c ∈ setSocket cores coreId pkg,
      ∃ c0 ∈ cores, c0.threads = c.threads := by
  intro cores
  induction cores with
  | nil =>
    intro c hc
    simp [setSocket] at hc
  | cons c0 rest ih =>
    intro c hc
    simp only [setSocket] at hc
    by_cases hid : c0.id = coreId
    · rw [if_pos hid] at hc
      rcases List.mem_cons.mp hc with h1 | h1
      · subst h1
        by_cases hres : c0.socketResolved
        · exact ⟨c0, List.mem_cons_self c0 rest, by rw [if_pos hres]⟩
        · exact ⟨c0, List.mem_cons_self c0 rest, by rw [if_neg hres]⟩
      · exact ⟨c, List.mem_cons_of_mem c0 h1, rfl⟩
    · rw [if_neg hid] at hc
      rcases List.mem_cons.mp hc with h1 | h1
      · subst h1
        exact ⟨c, List.mem_cons_self c rest, rfl⟩
      · rcases ih c h1 with ⟨c1, hc1, ht1⟩
        exact ⟨c1, List.mem_cons_of_mem c0 hc1, ht1⟩

/-- One step of the per-CPU loop only adds, as thread, the number of the
processed CPU, and only when that CPU is online. -/
theorem stepCPU_ok_threads (fs : SysFs) (acc : List CoreAcc) (d : String) (acc2 : List CoreAcc)
    (h : stepCPU fs acc d = Except.ok acc2) :
    ∀ c ∈ acc2, ∀ t ∈ c.threads,
      (∃ c0 ∈ acc, t ∈ c0.threads) ∨
      (cpuIDFromPath d = some t ∧ isCPUOnline fs d = true) := by
  unfold stepCPU at h
  split at h
  · exact absurd h (by simp)
  next cpuID hcpu =>
    split at h
    next hoff =>
      simp only [Except.ok.injEq] at h
      subst h
      intro c hc t ht
      exact Or.inl ⟨c, hc, ht⟩
    next hon =>
      rw [Bool.not_eq_false] at hon
      split at h
      · simp only [Except.ok.injEq] at h
        subst h
        intro c hc t ht
        exact Or.inl ⟨c, hc, ht⟩
      · exact absurd h (by simp)
      next raw =>
        split at h
        · exact absurd h (by simp)
        next coreId hparse =>
          split at h
          · simp only [Except.ok.injEq] at h
            subst h
            intro c hc t ht
            rcases addThread_threads coreId cpuID acc c hc t ht with h1 | h1
            · exact Or.inl h1
            · subst h1
              exact Or.inr ⟨hcpu, hon⟩
          next pkg hpkg =>
            simp only [Except.ok.injEq] at h
            subst h
            intro c hc t ht
            rcases setSocket_threads coreId pkg _ c hc with ⟨c1, hc1, hth⟩
            rw [← hth] at ht
            rcases addThread_threads coreId cpuID acc c1 hc1 t ht with h1 | h1
            · exact Or.inl h1
            · subst h1
              exact Or.inr ⟨hcpu, hon⟩

/-- Threads of the per-CPU loop's result come from the starting accumulator
or from an online member CPU of the processed list. -/
theorem getCoresInfoGo_threads (fs : SysFs) :
    ∀ (dirs : List String) (acc res : List CoreAcc),
      getCoresInfoGo fs acc dirs = (res, none) →
      ∀ c ∈ res, ∀ t ∈ c.threads,
        (∃ c0 ∈ acc, t ∈ c0.threads) ∨
        (∃ d ∈ dirs, cpuIDFromPath d = some t ∧ isCPUOnline fs d = true) := by
  intro dirs
  induction dirs with
  | nil =>
    intro acc res h c hc t ht
    simp only [getCoresInfoGo, Prod.mk.injEq] at h
    rw [← h.1] at hc
    exact Or.inl ⟨c, hc, ht⟩
  | cons d rest ih =>
    intro acc res h c hc t ht
    simp only [getCoresInfoGo] at h
    split at h
    · simp at h
    next acc2 hstep =>
      rcases ih acc2 res h c hc t ht with ⟨c0, hc0, ht0⟩ | ⟨d2, hd2, hrest⟩
      · rcases stepCPU_ok_threads fs acc d acc2 hstep c0 hc0 t ht0 with h1 | h1
        · exact Or.inl h1
        · exact Or.inr ⟨d, List.mem_cons_self d rest, h1⟩
      · exact Or.inr ⟨d2, List.mem_cons_of_mem d hd2, hrest⟩

/-- Threads of a successful `getCoresInfo` result come only from online
member CPUs of the input list: offline CPUs and CPUs outside the list never
contribute a thread. -/
theorem threads_provenance (fs : SysFs) (cpus : List String) (cores : List Core)
    (h : getCoresInfo fs cpus = (cores, none)) :
    ∀ core ∈ cores, ∀ t ∈ core.threads,
      ∃ d ∈ cpus, cpuIDFromPath d = some t ∧ isCPUOnline fs d = true := by
  intro core hcore t ht
  unfold getCoresInfo at h
  split at h
  next res hgo =>
    simp only [Prod.mk.injEq] at h
    rw [← h.1] at hcore
    rcases List.mem_map.mp hcore with ⟨ca, hca, hstrip⟩
    have hth : t ∈ ca.threads := by
      rw [← hstrip] at ht
      exact ht
    rcases getCoresInfoGo_threads fs cpus [] res hgo ca hca t hth with ⟨c0, hc0, _⟩ | h2
    · simp at hc0
    · exact h2
  · simp at h

/-- Members of the groups after one insertion were already grouped under the
same key, or are the inserted CPU under the inserted key. -/
theorem assocAppend_mem :
    ∀ (acc : List (Nat × List String)) (pkg : Nat) (d : String) (pkg2 : Nat) (cpus2 : List String),
      (pkg2, cpus2) ∈ assocAppend acc pkg d →
      ∀ x ∈ cpus2, (∃ cpus0, (pkg2, cpus0) ∈ acc ∧ x ∈ cpus0) ∨ (x = d ∧ pkg2 = pkg) := by
  intro acc
  induction acc with
  | nil =>
    intro pkg d pkg2 cpus2 h x hx
    simp only [assocAppend, List.mem_singleton, Prod.mk.injEq] at h
    rw [h.2] at hx
    simp only [List.mem_singleton] at hx
    exact Or.inr ⟨hx, h.1⟩
  | cons kv rest ih =>
    intro pkg d pkg2 cpus2 h x hx
    rcases kv with ⟨k, v⟩
    simp only [assocAppend] at h
    by_cases hk : k = pkg
    · rw [if_pos hk] at h
      rcases List.mem_cons.mp h with h1 | h1
      · rcases Prod.mk.injEq .. ▸ h1 with ⟨h2, h3⟩
        rw [h3] at hx
        simp only [List.mem_append, List.mem_singleton] at hx
        rcases hx with h4 | h4
        · exact Or.inl ⟨v, by rw [h2]; exact List.mem_cons_self (k, v) rest, h4⟩
        · exact Or.inr ⟨h4, h2.trans hk⟩
      · exact Or.inl ⟨cpus2, List.mem_cons_of_mem (k, v) h1, hx⟩
    · rw [if_neg hk] at h
      rcases List.mem_cons.mp h with h1 | h1
      · rcases Prod.mk.injEq .. ▸ h1 with ⟨h2, h3⟩
        exact Or.inl ⟨v, by rw [h2]; exact List.mem_cons_self (k, v) rest, h3 ▸ hx⟩
      · rcases ih pkg d pkg2 cpus2 h1 x hx with ⟨cpus0, hc0, hx0⟩ | h2
        · exact Or.inl ⟨cpus0, List.mem_cons_of_mem (k, v) hc0, hx0⟩
        · exact Or.inr h2

/-- Members of the package groups were already grouped in the starting
accumulator, or come from the processed CPU list with a successfully resolved
package id equal to their group key. -/
theorem groupByPkg_mem (fs : SysFs) :
    ∀ (dirs : List String) (acc : List (Nat × List String)) (pkg : Nat) (cpus : List String),
      (pkg, cpus) ∈ groupByPkg fs dirs acc →
      ∀ x ∈ cpus,
        (∃ cpus0, (pkg, cpus0) ∈ acc ∧ x ∈ cpus0) ∨
        (x ∈ dirs ∧ resolvePkg fs x = some pkg) := by
  intro dirs
  induction dirs with
  | nil =>
    intro acc pkg cpus h x hx
    simp only [groupByPkg] at h
    exact Or.inl ⟨cpus, h, hx⟩
  | cons d rest ih =>
    intro acc pkg cpus h x hx
    simp only [groupByPkg] at h
    split at h
    next hres =>
      rcases ih acc pkg cpus h x hx with h1 | ⟨h2, h3⟩
      · exact Or.inl h1
      · exact Or.inr ⟨List.mem_cons_of_mem d h2, h3⟩
    next pkg0 hres =>
      rcases ih _ pkg cpus h x hx with ⟨cpus0, hc0, hx0⟩ | ⟨h2, h3⟩
      · rcases assocAppend_mem acc pkg0 d pkg cpus0 hc0 x hx0 with h1 | ⟨h4, h5⟩
        · exact Or.inl h1
        · exact Or.inr ⟨by rw [h4]; exact List.mem_cons_self d rest, by rw [h4, h5]; exact hres⟩
      · exact Or.inr ⟨List.mem_cons_of_mem d h2, h3⟩

/-- When every CPU fails package resolution the grouping leaves the
accumulator untouched. -/
theorem groupByPkg_all_fail (fs : SysFs) :
    ∀ (dirs : List String) (acc : List (Nat × List String)),
      (∀ d ∈ dirs, resolvePkg fs d = none) →
      groupByPkg fs dirs acc = acc := by
  intro dirs
  induction dirs with
  | nil =>
    intro acc _
    rfl
  | cons d rest ih =>
    intro acc hall
    simp only [groupByPkg]
    split
    · exact ih acc (fun x hx => hall x (List.mem_cons_of_mem d hx))
    next pkg0 hres =>
      exact absurd (hall d (List.mem_cons_self d rest)) (by rw [hres]; simp)

/-- Every node of the synthetic assembly comes from one package group, with
its cores the successful core resolution of that group's CPUs. -/
theorem buildSyntheticNodes_mem (fs : SysFs) :
    ∀ (groups : List (Nat × List String)) (ns : List Node),
      buildSyntheticNodes fs groups = Except.ok ns →
      ∀ node ∈ ns, ∃ pkg cpus, (pkg, cpus) ∈ groups ∧ getCoresInfo fs cpus = (node.cores, none) := by
  intro groups
  induction groups with
  | nil =>
    intro ns h node hn
    simp only [buildSyntheticNodes, Except.ok.injEq] at h
    rw [← h] at hn
    simp at hn
  | cons g rest ih =>
    intro ns h node hn
    rcases g with ⟨pkg, cpus⟩
    simp only [buildSyntheticNodes] at h
    split at h
    · simp at h
    next cores hcores =>
      split at h
      · simp at h
      next ns0 hrest =>
        simp only [Except.ok.injEq] at h
        rw [← h] at hn
        rcases List.mem_cons.mp hn with h1 | h1
        · refine ⟨pkg, cpus, List.mem_cons_self (pkg, cpus) rest, ?_⟩
          rw [h1]
          exact hcores
        · rcases ih ns0 hrest node h1 with ⟨pkg2, cpus2, hg, hc⟩
          exact ⟨pkg2, cpus2, List.mem_cons_of_mem (pkg, cpus) hg, hc⟩

/-- C2: in synthetic mode (no NUMA node directories), a CPU whose
physical-package-id resolution fails appears in no node and in no core's
thread list of the successful result, yet the returned total still equals the
number of online CPUs with a successful sibling read (so such a CPU is still
counted whenever it is online and its sibling read succeeded); and when every
CPU's package resolution fails the result has no nodes at all while the total
is unchanged. -/
theorem c2_synthetic_package_failure (fs : SysFs) (d : String) (n : Nat)
    (hnodes : fs.nodesPaths = [])
    (_hid : cpuIDFromPath d = some n)
    (hpkg : resolvePkg fs d = none)
    (hinj : ∀ d2 ∈ fs.cpusPaths cpusPath, cpuIDFromPath d2 = some n → d2 = d) :
    ∀ nodes count, GetNodesInfo fs = (nodes, count, none) →
      (∀ node ∈ nodes, ∀ core ∈ node.cores, n ∉ core.threads) ∧
      count = ((fs.cpusPaths cpusPath).filter (onlineSiblingOk fs)).length ∧
      (onlineSiblingOk fs d = true → d ∈ fs.cpusPaths cpusPath →
        d ∈ (fs.cpusPaths cpusPath).filter (onlineSiblingOk fs)) ∧
      ((∀ d2 ∈ fs.cpusPaths cpusPath, resolvePkg fs d2 = none) → nodes = []) := by
  intro nodes count h
  rw [GetNodesInfo, hnodes] at h
  simp only [List.isEmpty_nil, if_true] at h
  rw [getCPUTopology] at h
  split at h
  · simp at h
  · split at h
    · simp at h
    next ns hns =>
      simp only [Prod.mk.injEq] at h
      rcases h with ⟨hnodeseq, hcount, _⟩
      refine ⟨?_, hcount.symm, ?_, ?_⟩
      · intro node hnode core hcore hmem
        rw [← hnodeseq] at hnode
        rcases buildSyntheticNodes_mem fs _ ns hns node hnode with ⟨pkg, cpus, hg, hcores⟩
        rcases threads_provenance fs cpus node.cores hcores core hcore n hmem with ⟨d2, hd2, hid2, _⟩
        rcases groupByPkg_mem fs _ [] pkg cpus hg d2 hd2 with ⟨cpus0, hc0, _⟩ | ⟨hin, hres⟩
        · simp at hc0
        · rw [hinj d2 hin hid2] at hres
          rw [hres] at hpkg
          simp at hpkg
      · intro hok hd
        exact List.mem_filter.mpr ⟨hd, hok⟩
      · intro hall
        rw [groupByPkg_all_fail fs _ [] hall] at hns
        simp only [buildSyntheticNodes, Except.ok.injEq] at hns
        rw [← hnodeseq, ← hns]

/-- C1 counterexample: on the TestGetCoresInfoWhenCoreIDIsNotDigit input
 — one member CPU whose core-id file reads successfully but holds the
non-digit value abc — `getCoresInfo` does not succeed without error: it
returns no cores and a non-nil error, so a non-digit core-id value is not a
per-CPU skip. -/
theorem c1_counterexample :
    c1Fs.coreID pC0 = Except.ok sAbc ∧ parseNatStr sAbc = none ∧
    getCoresInfo c1Fs [pC0] = ([], some Err.badCoreId) := by
  refine ⟨rfl, by decide, by decide⟩

/-- C1 (amended): for an online member CPU, a sibling/core-id read failing
with not-exist is a hard per-CPU skip — the CPU is dropped and the operation
proceeds as if it were absent, without a fatal error — while a core-id read
yielding a non-digit value is a fatal error: `getCoresInfo` returns no cores
and a non-nil error. -/
theorem c1_core_id_policy (fs : SysFs) (d : String) (rest : List String) (n : Nat)
    (hid : cpuIDFromPath d = some n) (hon : isCPUOnline fs d = true) :
    (fs.coreID d = Except.error Err.notExist →
      getCoresInfo fs (d :: rest) = getCoresInfo fs rest) ∧
    (∀ s, fs.coreID d = Except.ok s → parseNatStr s = none →
      getCoresInfo fs (d :: rest) = ([], some Err.badCoreId)) := by
  constructor
  · intro hread
    have hstep : stepCPU fs [] d = Except.ok [] := by
      simp [stepCPU, hid, hon, hread]
    have key : getCoresInfoGo fs [] (d :: rest) = getCoresInfoGo fs [] rest := by
      simp only [getCoresInfoGo, hstep]
    unfold getCoresInfo
    rw [key]
  · intro s hread hparse
    have hstep : stepCPU fs [] d = Except.error Err.badCoreId := by
      simp [stepCPU, hid, hon, hread, hparse]
    have key : getCoresInfoGo fs [] (d :: rest) = ([], some Err.badCoreId) := by
      simp only [getCoresInfoGo, hstep]
    unfold getCoresInfo
    rw [key]

/-- C1 witness: on the concrete accessor where the first CPU's core-id file
is absent, the amended theorem applies: the CPU is skipped and the remaining
CPU still forms its core. -/
theorem c1_core_id_policy_witness :
    getCoresInfo skipFs [pC0, pC1] = getCoresInfo skipFs [pC1] ∧
    getCoresInfo skipFs [pC0, pC1] = ([{ id := 0, threads := [1], socketID := 0 }], none) := by
  constructor
  · exact (c1_core_id_policy skipFs pC0 [pC1] 0 (by decide) (by decide)).1 rfl
  · decide

/-- C3: a CPU reported offline by an explicit online-status read returning
false contributes no thread to any core of a successful `getCoresInfo`
result (every thread comes from an online member CPU), a CPU with no online
indicator is treated as online, and on the TestGetNodesInfoWithOfflineCPUs
scenario — two nodes of two CPUs each with one CPU of each node offline —
each node's core retains only the online thread id and the total CPU count
is 2, exactly the 4 member CPUs minus the 2 offline ones. -/
theorem c3_offline_cpus_excluded (fs : SysFs) (cpus : List String) (cores : List Core)
    (h : getCoresInfo fs cpus = (cores, none)) :
    (∀ core ∈ cores, ∀ t ∈ core.threads,
      ∃ d ∈ cpus, cpuIDFromPath d = some t ∧ isCPUOnline fs d = true) ∧
    (∀ p, fs.onlineStatus p = none → isCPUOnline fs p = true) ∧
    GetNodesInfo offlineFs = ([offlineNode0, offlineNode1], 2, none) := by
  refine ⟨threads_provenance fs cpus cores h, ?_, by decide⟩
  intro p hp
  simp [isCPUOnline, hp]

/-- C3 witness: the theorem applied to the offline scenario's first node:
its core's only thread 0 comes from an online CPU, and the whole discovery
result keeps only the online threads with a total of 2. -/
theorem c3_offline_cpus_excluded_witness :
    (∃ d ∈ [pC0, pC1], cpuIDFromPath d = some 0 ∧ isCPUOnline offlineFs d = true) ∧
    GetNodesInfo offlineFs = ([offlineNode0, offlineNode1], 2, none) := by
  have happ := c3_offline_cpus_excluded offlineFs [pC0, pC1]
    [{ id := 0, threads := [0], socketID := 0 }] (by decide)
  exact ⟨happ.1 { id := 0, threads := [0], socketID := 0 } (by decide) 0 (by decide), happ.2.2⟩

/-- C2 witness: the theorem applied to the two synthetic scenarios: with
every package read failing the result has no nodes yet counts both CPUs;
with one CPU's package read failing that CPU's number 1 is in no core of the
one remaining node while the count still includes it. -/
theorem c2_synthetic_package_failure_witness :
    GetNodesInfo synthAllFailFs = ([], 2, none) ∧
    GetNodesInfo synthOneFailFs = ([synthOneFailNode], 2, none) ∧
    (∀ core ∈ synthOneFailNode.cores, (1 : Nat) ∉ core.threads) := by
  have hall := c2_synthetic_package_failure synthAllFailFs spC0 0 rfl (by decide) (by decide)
    (by decide) [] 2 (by decide)
  have hone := c2_synthetic_package_failure synthOneFailFs spC1 1 rfl (by decide) (by decide)
    (by decide) [synthOneFailNode] 2 (by decide)
  refine ⟨by decide, by decide, ?_⟩
  intro core hcore
  exact hone.1 synthOneFailNode (by decide) core hcore

/-- C5: node memory resolution returns zero memory and no error when the
meminfo read itself fails, returns zero and a non-nil error when the file is
readable but lacks the MemTotal field, and on the concrete discovery
scenario with such a file the whole call aborts with no nodes, a zero count
and the error. -/
theorem c5_node_memory_policy (fs : SysFs) (dir : String) :
    ((∃ e, fs.memInfo dir = Except.error e) → getNodeMemInfo fs dir = (0, none)) ∧
    (∀ s, fs.memInfo dir = Except.ok s → extractMemTotal s = none →
      getNodeMemInfo fs dir = (0, some Err.memTotalNotFound)) ∧
    GetNodesInfo memFailFs = ([], 0, some Err.memTotalNotFound) := by
  refine ⟨?_, ?_, by decide⟩
  · rintro ⟨e, he⟩
    simp [getNodeMemInfo, he]
  · intro s hs hx
    simp [getNodeMemInfo, hs, hx]

/-- C5 witness: the theorem applied to the accessor whose meminfo read fails
(zero memory, no error) and to the accessor whose meminfo lacks MemTotal
(zero memory with the error). -/
theorem c5_node_memory_policy_witness :
    getNodeMemInfo memAbsentFs pN0 = (0, none) ∧
    getNodeMemInfo memFailFs pN0 = (0, some Err.memTotalNotFound) := by
  exact ⟨(c5_node_memory_policy memAbsentFs pN0).1 ⟨Err.readFailure, rfl⟩,
         (c5_node_memory_policy memFailFs pN0).2.1 sEmpty rfl (by decide)⟩

/-- Any malformed entry in the huge-page directory listing makes the
per-entry loop return an empty list together with some error. -/
theorem goHugePages_err (fs : SysFs) (dir : String) :
    ∀ names : List String, (∃ nm ∈ names, badHugeEntry fs dir nm) →
      (goHugePages fs dir names).1 = [] ∧ (goHugePages fs dir names).2.isSome = true := by
  intro names
  induction names with
  | nil =>
    rintro ⟨nm, hmem, _⟩
    simp at hmem
  | cons name rest ih =>
    rintro ⟨nm, hmem, hbad⟩
    rcases List.mem_cons.mp hmem with heq | hmem2
    · subst heq
      rcases hbad with h1 | ⟨e, h2⟩ | ⟨s, h3, h4⟩
      · simp [goHugePages, h1]
      · cases hps : parseHugePageSize nm
        · simp [goHugePages, hps]
        · simp [goHugePages, hps, h2]
      · cases hps : parseHugePageSize nm
        · simp [goHugePages, hps]
        · simp [goHugePages, hps, h3, h4]
    · cases hps : parseHugePageSize name
      · simp [goHugePages, hps]
      next sz =>
        cases hnr : fs.hugePagesNr dir name
        next e => simp [goHugePages, hps, hnr]
        next cont =>
          cases hsc : sscanfNat cont
          · simp [goHugePages, hps, hnr, hsc]
          next cnt =>
            have hbadrest := ih ⟨nm, hmem2, hbad⟩
            rcases hgo : goHugePages fs dir rest with ⟨tail, o⟩
            rw [hgo] at hbadrest
            rcases Option.isSome_iff_exists.mp hbadrest.2 with ⟨e, he⟩
            have ho : o = some e := he
            subst ho
            simp [goHugePages, hps, hnr, hsc, hgo]

/-- C6: huge-page resolution returns an empty list and no error when the
directory tree is absent (the listing read fails); a malformed size suffix
or an unreadable or non-numeric page count yields a non-nil error and an
empty result; and on the concrete discovery scenario with a malformed size
directory the whole call aborts with no nodes, a zero count and the error. -/
theorem c6_hugepages_policy (fs : SysFs) (dir : String) :
    ((∃ e, fs.hugePagesList dir = Except.error e) → GetHugePagesInfo fs dir = ([], none)) ∧
    (∀ names, fs.hugePagesList dir = Except.ok names →
      (∃ nm ∈ names, badHugeEntry fs dir nm) →
      (GetHugePagesInfo fs dir).1 = [] ∧ (GetHugePagesInfo fs dir).2.isSome = true) ∧
    GetNodesInfo hugeFailFs = ([], 0, some Err.badHugePageSize) := by
  refine ⟨?_, ?_, by decide⟩
  · rintro ⟨e, he⟩
    simp [GetHugePagesInfo, he]
  · intro names hn hbad
    have hfold := goHugePages_err fs dir names hbad
    rw [GetHugePagesInfo, hn]
    exact hfold

/-- C6 witness: the theorem applied to the accessor with an absent huge-page
tree (empty list, no error) and to the accessor with the malformed size
directory hugepages-abckB (empty result with an error). -/
theorem c6_hugepages_policy_witness :
    GetHugePagesInfo hugeAbsentFs pN0 = ([], none) ∧
    (GetHugePagesInfo hugeFailFs (pN0 ++ hugePagesSuffix)).1 = [] ∧
    (GetHugePagesInfo hugeFailFs (pN0 ++ hugePagesSuffix)).2.isSome = true := by
  refine ⟨(c6_hugepages_policy hugeAbsentFs pN0).1 ⟨Err.readFailure, rfl⟩, ?_⟩
  exact (c6_hugepages_policy hugeFailFs (pN0 ++ hugePagesSuffix)).2.1 [hpBad] rfl
    ⟨hpBad, List.mem_singleton.mpr rfl, Or.inl (by decide)⟩

/-- C7: `GetSocketFromCPU` searches all cores' thread lists across the node
tree: for a CPU present in some core's threads it returns the socket id of a
core containing it (the first such core in search order), and for a CPU
contained in no core it returns the sentinel value -1. -/
theorem c7_getSocketFromCPU (nodes : List Node) (cpu : Nat) :
    ((∃ node ∈ nodes, ∃ core ∈ node.cores, cpu ∈ core.threads) →
      ∃ node ∈ nodes, ∃ core ∈ node.cores, cpu ∈ core.threads ∧
        GetSocketFromCPU nodes cpu = Int.ofNat core.socketID) ∧
    ((∀ node ∈ nodes, ∀ core ∈ node.cores, cpu ∉ core.threads) →
      GetSocketFromCPU nodes cpu = -1) := by
  induction nodes with
  | nil =>
    refine ⟨?_, ?_⟩
    · rintro ⟨node, hnode, _⟩
      simp at hnode
    · intro _
      rfl
  | cons node rest ih =>
    refine ⟨?_, ?_⟩
    · rintro ⟨node2, hnode2, core2, hcore2, hmem2⟩
      cases hfind : findCoreWithThread node.cores cpu
      · rcases List.mem_cons.mp hnode2 with heq | hrest
        · subst heq
          have hb : ¬(core2.threads.contains cpu = true) :=
            List.find?_eq_none.mp hfind core2 hcore2
          exact absurd (List.elem_iff.mpr hmem2) hb
        · rcases ih.1 ⟨node2, hrest, core2, hcore2, hmem2⟩ with ⟨n3, hn3, c3, hc3, hm3, hres⟩
          refine ⟨n3, List.mem_cons_of_mem node hn3, c3, hc3, hm3, ?_⟩
          rw [GetSocketFromCPU, hfind]
          exact hres
      next core =>
        have hfind2 : List.find? (fun c => c.threads.contains cpu) node.cores = some core := hfind
        have hcm : core ∈ node.cores := List.mem_of_find?_eq_some hfind2
        have hb := List.find?_some hfind2
        refine ⟨node, List.mem_cons_self node rest, core, hcm, List.elem_iff.mp hb, ?_⟩
        rw [GetSocketFromCPU, hfind]
    · intro hnone
      have hfind : findCoreWithThread node.cores cpu = none := by
        apply List.find?_eq_none.mpr
        intro core hcore hb
        exact hnone node (List.mem_cons_self node rest) core hcore (List.elem_iff.mp hb)
      rw [GetSocketFromCPU, hfind]
      exact ih.2 (fun n hn c hc => hnone n (List.mem_cons_of_mem node hn) c hc)

/-- C7 witness: the theorem applied to the TestGetSocketFromCPU topology:
CPU 8 is in no core and yields the sentinel; CPU 6 is present and yields its
core's socket id 1. -/
theorem c7_getSocketFromCPU_witness :
    GetSocketFromCPU socketTopo 8 = -1 ∧ GetSocketFromCPU socketTopo 6 = 1 := by
  exact ⟨(c7_getSocketFromCPU socketTopo 8).2 (by decide), by decide⟩

/-- Lookup after a map insertion: the inserted key now maps to the inserted
value, all other keys are unchanged. -/
theorem assocLookup_upsert :
    ∀ (l : List (String × Nat)) (k : String) (v : Nat) (n : String),
      assocLookup (upsert l k v) n = if k = n then some v else assocLookup l n := by
  intro l
  induction l with
  | nil =>
    intro k v n
    simp [upsert, assocLookup]
  | cons kv rest ih =>
    intro k v n
    rcases kv with ⟨k0, v0⟩
    by_cases h1 : k0 = k
    · subst h1
      by_cases h2 : k0 = n
      · subst h2
        simp [upsert, assocLookup]
      · simp [upsert, assocLookup, h2]
    · by_cases h2 : k0 = n
      · subst h2
        have h3 : ¬(k = k0) := fun hh => h1 hh.symm
        simp [upsert, assocLookup, h1, h3]
      · simp [upsert, assocLookup, h1, h2, ih]

/-- Lookup in the parser loop's result: a filtered-in name maps to the value
of the last well-formed line carrying it, any other name falls back to the
starting accumulator. -/
theorem goVMStats_lookup (p : String → Bool) :
    ∀ (lines : List String) (acc : List (String × Nat)) (n : String),
      assocLookup (goVMStats p lines acc) n =
        orElseO (if p n = true then lastVal (lines.filterMap parseVMLine) n else none)
          (assocLookup acc n) := by
  intro lines
  induction lines with
  | nil =>
    intro acc n
    simp [goVMStats, lastVal, orElseO]
  | cons line rest ih =>
    intro acc n
    cases hp : parseVMLine line
    · simp only [goVMStats, hp, List.filterMap_cons]
      exact ih acc n
    next kv =>
      rcases kv with ⟨k, v⟩
      simp only [goVMStats, hp, List.filterMap_cons]
      rw [ih (if p k = true then upsert acc k v else acc) n]
      by_cases hpn : p n = true
      · cases hl : lastVal (rest.filterMap parseVMLine) n
        next =>
          by_cases hk : k = n
          · subst hk
            simp [hpn, lastVal, hl, orElseO, assocLookup_upsert]
          · by_cases hpk : p k = true
            · simp [hpn, hpk, lastVal, hl, orElseO, assocLookup_upsert, hk]
            · simp [hpn, hpk, lastVal, hl, orElseO, hk]
        next w =>
          simp [hpn, lastVal, hl, orElseO]
      · have hpn2 : p n = false := Bool.not_eq_true _ ▸ hpn
        simp only [hpn2, Bool.false_eq_true, if_false, orElseO]
        by_cases hpk : p k = true
        · rw [if_pos hpk, assocLookup_upsert]
          have hk : ¬(k = n) := by
            intro hh
            rw [hh, hpn2] at hpk
            cases hpk
          rw [if_neg hk]
        · rw [if_neg hpk]

/-- A filter matching no name leaves the parser loop's accumulator
untouched. -/
theorem goVMStats_all_false (p : String → Bool) (hall : ∀ n, p n = false) :
    ∀ (lines : List String) (acc : List (String × Nat)),
      goVMStats p lines acc = acc := by
  intro lines
  induction lines with
  | nil =>
    intro acc
    rfl
  | cons line rest ih =>
    intro acc
    cases hp : parseVMLine line
    · simp only [goVMStats, hp]
      exact ih acc
    next kv =>
      rcases kv with ⟨k, v⟩
      simp only [goVMStats, hp, hall k, Bool.false_eq_true, if_false]
      exact ih acc

/-- C8: on a readable counter file the parser returns no error, its result
maps a name to a value exactly when the name satisfies the filter and the
value is that of the last well-formed line carrying the name (so every
matching line is kept, last occurrence winning, and every non-matching
line is omitted — with the universal filter this is every pair of the file
verbatim), and a filter matching no names yields an empty mapping. -/
theorem c8_getVMStats_filter (p : String → Bool) (s : String) :
    (GetVMStats p (Except.ok s)).2 = none ∧
    (∀ name v, assocLookup (GetVMStats p (Except.ok s)).1 name = some v ↔
      (p name = true ∧ lastVal (vmPairs s) name = some v)) ∧
    ((∀ n, p n = false) → (GetVMStats p (Except.ok s)).1 = []) := by
  refine ⟨rfl, ?_, ?_⟩
  · intro name v
    have h := goVMStats_lookup p (splitLines s) [] name
    have hres : (GetVMStats p (Except.ok s)).1 = goVMStats p (splitLines s) [] := rfl
    rw [hres, h]
    by_cases hp : p name = true
    · cases hl : lastVal ((splitLines s).filterMap parseVMLine) name <;>
        simp [orElseO, vmPairs, hp, hl, assocLookup]
    · have hp2 : p name = false := Bool.not_eq_true _ ▸ hp
      simp [orElseO, hp2, assocLookup]
  · intro hall
    exact goVMStats_all_false p hall (splitLines s) []

/-- C8 witness: the theorem applied to a concrete three-line counter file
with the numa-names filter: numa_hit is mapped to its value, and with the
nothing-matching filter the result is empty. -/
theorem c8_getVMStats_filter_witness :
    assocLookup (GetVMStats numaFilter (Except.ok vmContent)).1 vmNumaHit = some 5 ∧
    assocLookup (GetVMStats numaFilter (Except.ok vmContent)).1 vmPgfault = none ∧
    (GetVMStats noneFilter (Except.ok vmContent)).1 = [] := by
  refine ⟨((c8_getVMStats_filter numaFilter vmContent).2.1 vmNumaHit 5).mpr (by decide),
    by decide,
    (c8_getVMStats_filter noneFilter vmContent).2.2 (fun n => rfl)⟩

/-- C4: `NewManager` returns the no-op manager together with some error
exactly when the setup routine returned an error, or the resource-control
filesystem is not initialized, or neither the cache-occupancy nor the
memory-bandwidth feature is enabled; in every other case it returns the
ready manager holding the given polling interval and no error. -/
theorem c4_newManager (st : ResctrlState) (interval : Int) (setupResult : Option Err) :
    (((NewManager st interval setupResult).1 = RManager.noop ∧
      (NewManager st interval setupResult).2.isSome = true) ↔
      (setupResult.isSome = true ∨ st.isResctrlInitialized = false ∨
        (st.enabledCMT || st.enabledMBM) = false)) ∧
    ((setupResult = none ∧ st.isResctrlInitialized = true ∧
        (st.enabledCMT || st.enabledMBM) = true) →
      NewManager st interval setupResult = (RManager.ready interval, none)) := by
  rcases st with ⟨i, c, m⟩
  cases setupResult <;> cases i <;> cases c <;> cases m <;> simp [NewManager]

/-- C4 witness: with a successful setup, an initialized filesystem and one
enabled feature the ready manager holding the interval is returned; with an
uninitialized filesystem the no-op manager is returned. -/
theorem c4_newManager_witness :
    NewManager { isResctrlInitialized := true, enabledCMT := true, enabledMBM := false } 5 none =
      (RManager.ready 5, none) ∧
    (NewManager { isResctrlInitialized := false, enabledCMT := true, enabledMBM := true } 5 none).1 =
      RManager.noop := by
  refine ⟨(c4_newManager ⟨true, true, false⟩ 5 none).2 ⟨rfl, rfl, rfl⟩, ?_⟩
  exact ((c4_newManager ⟨false, true, true⟩ 5 none).1.mpr (Or.inr (Or.inl rfl))).1

/-- C9: the ready manager's GetCollector returns the no-op collector
together with the setup error when the per-container collector's setup
fails, and the real per-container collector with no error when setup
succeeds. -/
theorem c9_manager_getCollector (interval : Int) (name : String) (setupResult : Option Err) :
    (∀ e, setupResult = some e →
      managerGetCollector interval name setupResult = (RCollector.noop, some e)) ∧
    (setupResult = none →
      managerGetCollector interval name setupResult = (RCollector.collector name interval, none)) := by
  constructor
  · intro e he
    subst he
    rfl
  · intro he
    subst he
    rfl

/-- C9 witness: the theorem applied to a failing and a succeeding collector
setup for a concrete container. -/
theorem c9_manager_getCollector_witness :
    managerGetCollector 5 containerName0 (some Err.setupFailed) =
      (RCollector.noop, some Err.setupFailed) ∧
    managerGetCollector 5 containerName0 none =
      (RCollector.collector containerName0 5, none) := by
  exact ⟨(c9_manager_getCollector 5 containerName0 (some Err.setupFailed)).1 Err.setupFailed rfl,
         (c9_manager_getCollector 5 containerName0 none).2 rfl⟩

/-- C10: the no-op (Disabled) manager's GetCollector returns the no-op
collector and no error for every container name and every pid-listing
callback. -/
theorem c10_noopManager_getCollector (name : String)
    (lister : Unit → List String × Option Err) :
    noopGetCollector name lister = (RCollector.noop, none) := rfl
